import Mathlib

/-!
Verification of the nomad-xyz agents repository: a shallow embedding of the
watcher's fraud-detection pipeline, the monitor's DispatchWait stage and the
NomadDB indexed store, with theorems settling the spec's claims about them.

Hash values (Rust `H256`) and addresses (`H160`) are modelled as natural
numbers; byte strings as `List Nat`.  secp256k1 signature recovery is not
computable here, so functions that recover signers take the recovery map as an
explicit argument (`recover : SignedUpdate → Option Nat`, `none` modelling a
failed recovery), exactly where the Rust calls `SignedUpdate::recover`.
-/

namespace Nomad

/-- A 32-byte hash, modelled as a natural number. -/
abbrev H256 := Nat

/-- An update message: `Update { home_domain, previous_root, new_root }`. -/
structure Update where
  home_domain : Nat
  previous_root : H256
  new_root : H256
deriving DecidableEq, Repr

/-- A signed update.  The 65-byte signature is modelled as an abstract
natural-number tag; recovery of the signer from it is an explicit parameter
wherever the code performs it. -/
structure SignedUpdate where
  update : Update
  signature : Nat
deriving DecidableEq, Repr

/-- An ordered pair of conflicting signed updates, Rust's tuple struct
`DoubleUpdate(SignedUpdate, SignedUpdate)`. -/
structure DoubleUpdate where
  first : SignedUpdate
  second : SignedUpdate
deriving DecidableEq, Repr

/-- A parsed Nomad message (`NomadMessage`). -/
structure NomadMessage where
  origin : Nat
  sender : H256
  nonce : Nat
  destination : Nat
  recipient : H256
  body : List Nat
deriving DecidableEq, Repr

/-- A raw committed message as indexed from chain
(`RawCommittedMessage { leaf_index, committed_root, message }`). -/
structure RawCommittedMessage where
  leaf_index : Nat
  committed_root : H256
  message : List Nat
deriving DecidableEq, Repr

/-- Big-endian interpretation of a byte list as a natural number. -/
def beNat (bs : List Nat) : Nat :=
  bs.foldl (fun acc b => acc * 256 + b) 0

/-- `NomadMessage::read_from`: parse the canonical wire encoding
`be_u32(origin) ‖ sender:32 ‖ be_u32(nonce) ‖ be_u32(destination) ‖
recipient:32 ‖ body`.  Fails when fewer than 76 bytes are available. -/
def NomadMessage.read_from (bs : List Nat) : Option NomadMessage :=
  if bs.length < 76 then none
  else some
    { origin := beNat (bs.take 4)
      sender := beNat ((bs.drop 4).take 32)
      nonce := beNat ((bs.drop 36).take 4)
      destination := beNat ((bs.drop 40).take 4)
      recipient := beNat ((bs.drop 44).take 32)
      body := bs.drop 76 }

/-- `NomadMessage::destination_and_nonce`: `(destination << 32) | nonce`. -/
def NomadMessage.destination_and_nonce (m : NomadMessage) : Nat :=
  m.destination * 2 ^ 32 + m.nonce

/-- An EVM beacon proxy (`nomad_types::Proxy`). -/
structure Proxy where
  implementation : Nat
  proxy : Nat
  beacon : Nat
deriving DecidableEq, Repr

/-- `impl PartialEq for Proxy` from nomad-types: the implementation address is
deliberately NOT compared, so a proxy is equal to itself regardless of the
current implementation. -/
def proxyEq (a b : Proxy) : Bool :=
  a.proxy == b.proxy && a.beacon == b.beacon

/-- Modelled from the spec: the Rust struct
`nomad_xyz_configuration::contracts::CoreContracts` is not under src/ (only
its schema export in configuration/src/wasm/types.rs and its callers are).
Modelled after the exported `EvmCoreContracts` interface: `deployHeight`,
`upgradeBeaconController`, `xAppConnectionManager`, `updaterManager`,
`governanceRouter`, `home`, and the replica map `Record<string, Proxy>`
(modelled as an association list with HashMap equality semantics). -/
structure EvmCoreContracts where
  deployHeight : Nat
  upgradeBeaconController : Nat
  xAppConnectionManager : Nat
  updaterManager : Nat
  governanceRouter : Proxy
  home : Proxy
  replicas : List (String × Proxy)
deriving DecidableEq, Repr

/-- Modelled from the spec: the `CoreContracts` enum has a single EVM variant
(see `CoreContracts::Evm` in agents/monitor/src/domain.rs). -/
inductive CoreContracts
  | Evm (contracts : EvmCoreContracts)
deriving DecidableEq, Repr

/-- Association-list lookup for the replica map. -/
def lookupReplica (k : String) : List (String × Proxy) → Option Proxy
  | [] => none
  | (k', v) :: rest => if k' = k then some v else lookupReplica k rest

/-- `HashMap` equality for the replica map: same cardinality, and every
key of the left map is present in the right with an equal (under `proxyEq`)
value. -/
def replicasEq (a b : List (String × Proxy)) : Bool :=
  a.length == b.length &&
    a.all fun kv =>
      match lookupReplica kv.1 b with
      | some w => proxyEq kv.2 w
      | none => false

/-- Derived `PartialEq` for the modelled `EvmCoreContracts`: fieldwise, using
the custom `Proxy` equality (which ignores implementation addresses) and
`HashMap` equality for the replica map. -/
def evmCoreEq (a b : EvmCoreContracts) : Bool :=
  a.deployHeight == b.deployHeight &&
  a.upgradeBeaconController == b.upgradeBeaconController &&
  a.xAppConnectionManager == b.xAppConnectionManager &&
  a.updaterManager == b.updaterManager &&
  proxyEq a.governanceRouter b.governanceRouter &&
  proxyEq a.home b.home &&
  replicasEq a.replicas b.replicas

/-- `PartialEq` for the modelled `CoreContracts`. -/
def coreContractsEq : CoreContracts → CoreContracts → Bool
  | .Evm a, .Evm b => evmCoreEq a b

/-- Full proxy equality: all three fields, as they appear in the JSON
serialization of a `Proxy`. -/
def proxyJsonEq (a b : Proxy) : Bool :=
  a.implementation == b.implementation && a.proxy == b.proxy && a.beacon == b.beacon

/-- Set-equality of the replica map's JSON object: same key set, with the
full JSON value (all proxy fields) equal at every key. -/
def replicasJsonEq (a b : List (String × Proxy)) : Bool :=
  a.length == b.length &&
    a.all fun kv =>
      match lookupReplica kv.1 b with
      | some w => proxyJsonEq kv.2 w
      | none => false

/-- Set-equality of the JSON encodings of two core-contract values, following
the spec's words ("x == y (set-equal as JSON)"): the JSON objects have a fixed
key schema, so this is fieldwise equality with every `Proxy` field (including
`implementation`) compared and the replica object compared as a key-value
set. -/
def coreJsonEq : CoreContracts → CoreContracts → Bool
  | .Evm a, .Evm b =>
    a.deployHeight == b.deployHeight &&
    a.upgradeBeaconController == b.upgradeBeaconController &&
    a.xAppConnectionManager == b.xAppConnectionManager &&
    a.updaterManager == b.updaterManager &&
    proxyJsonEq a.governanceRouter b.governanceRouter &&
    proxyJsonEq a.home b.home &&
    replicasJsonEq a.replicas b.replicas

/-- The typed keyed store (`NomadDB`), one field per prefixed namespace used by
the claims.  The prefixed key spaces are disjoint in the byte-KV engine (the
prefixes differ and the encoded keys have fixed lengths), so each namespace is
modelled as its own map. -/
structure NomadDB where
  /-- `update_` keyed by previous root: previous root ↦ signed update. -/
  update_ : H256 → Option SignedUpdate
  /-- `update_prev_root` keyed by new root: new root ↦ previous root. -/
  update_prev_root : H256 → Option H256
  /-- `update_latest_root`: the latest new root, if any. -/
  update_latest_root : Option H256
  /-- `latest_known_leaf_index_`: the latest leaf index, if any. -/
  latest_leaf_index_ : Option Nat
  /-- `leaf_` keyed by leaf index: leaf index ↦ leaf hash. -/
  leaf_by_index_ : Nat → Option H256
  /-- `leaf_` keyed by destination-and-nonce: dest+nonce ↦ leaf hash. -/
  leaf_by_dest_nonce_ : Nat → Option H256
  /-- `message_` keyed by leaf hash: leaf ↦ raw committed message. -/
  message_ : H256 → Option RawCommittedMessage
  /-- `core_ingerity_` keyed by contract-set name.  The Rust stores the JSON
  string and deserializes on retrieval; serialization round-trips, so the
  stored value is modelled directly. -/
  core_integrity_ : String → Option CoreContracts

/-- A `NomadDB` over an empty byte-KV engine. -/
def emptyDB : NomadDB where
  update_ := fun _ => none
  update_prev_root := fun _ => none
  update_latest_root := none
  latest_leaf_index_ := none
  leaf_by_index_ := fun _ => none
  leaf_by_dest_nonce_ := fun _ => none
  message_ := fun _ => none
  core_integrity_ := fun _ => none

/-- `NomadDB::store_update`: write `update_[previous_root] := update` and
`update_prev_root[new_root] := previous_root`. -/
def store_update (db : NomadDB) (u : SignedUpdate) : NomadDB :=
  { db with
    update_ := fun k =>
      if k = u.update.previous_root then some u else db.update_ k
    update_prev_root := fun k =>
      if k = u.update.new_root then some u.update.previous_root
      else db.update_prev_root k }

/-- `NomadDB::store_latest_root`: overwrite the latest-root pointer. -/
def store_latest_root (db : NomadDB) (root : H256) : NomadDB :=
  { db with update_latest_root := some root }

/-- `NomadDB::retrieve_latest_root`. -/
def retrieve_latest_root (db : NomadDB) : Option H256 :=
  db.update_latest_root

/-- `NomadDB::store_latest_update`: advance the latest-root pointer only when
the update builds off the current latest root (or none exists), then store the
per-root mappings unconditionally. -/
def store_latest_update (db : NomadDB) (u : SignedUpdate) : NomadDB :=
  let db1 :=
    match db.update_latest_root with
    | some root =>
      if root = u.update.previous_root then store_latest_root db u.update.new_root
      else db
    | none => store_latest_root db u.update.new_root
  store_update db1 u

/-- `NomadDB::update_by_previous_root`. -/
def update_by_previous_root (db : NomadDB) (previous_root : H256) : Option SignedUpdate :=
  db.update_ previous_root

/-- `NomadDB::update_by_new_root`: follow `update_prev_root` then `update_`. -/
def update_by_new_root (db : NomadDB) (new_root : H256) : Option SignedUpdate :=
  match db.update_prev_root new_root with
  | some prev_root => update_by_previous_root db prev_root
  | none => none

/-- `UpdateHandler::check_double_update`.  Looks up the stored update sharing
the incoming update's previous root.  If absent, stores the incoming update.
If present, recovers both signers (`recover`; `none` models a failed
recovery): any failure is treated as not-double; otherwise a double update is
reported exactly when the new roots differ and the signers coincide, with the
previously stored update first. -/
def check_double_update (recover : SignedUpdate → Option Nat)
    (db : NomadDB) (update : SignedUpdate) : Except DoubleUpdate NomadDB :=
  let new_root := update.update.new_root
  match update_by_previous_root db update.update.previous_root with
  | some existing =>
    match recover existing, recover update with
    | some existing_signer, some new_signer =>
      if existing.update.new_root ≠ new_root ∧ existing_signer = new_signer then
        .error ⟨existing, update⟩
      else
        .ok db
    | _, _ => .ok db
  | none => .ok (store_update db update)

/-- How a call to `store_latest_message` can fail: a `Result` error from the
message parser, or the unguarded `u32` subtraction `message.leaf_index - 1`
underflowing (a panic in checked Rust arithmetic). -/
inductive StoreErr
  | parse
  | underflow
deriving DecidableEq, Repr

/-- `NomadDB::update_latest_leaf_index`. -/
def update_latest_leaf_index (db : NomadDB) (leaf_index : Nat) : NomadDB :=
  { db with latest_leaf_index_ := some leaf_index }

/-- `NomadDB::retrieve_latest_leaf_index`. -/
def retrieve_latest_leaf_index (db : NomadDB) : Option Nat :=
  db.latest_leaf_index_

/-- `NomadDB::store_leaf`: write the leaf hash keyed by destination-and-nonce
and by leaf index. -/
def store_leaf (db : NomadDB) (leaf_index : Nat) (destination_and_nonce : Nat)
    (leaf : H256) : NomadDB :=
  { db with
    leaf_by_dest_nonce_ := fun k =>
      if k = destination_and_nonce then some leaf else db.leaf_by_dest_nonce_ k
    leaf_by_index_ := fun k =>
      if k = leaf_index then some leaf else db.leaf_by_index_ k }

/-- `NomadDB::store_raw_committed_message`: parse the message (failing with a
`Result` error if it does not decode), then write both leaf keys and the
message keyed by its leaf hash.  `keccak` is the leaf-hash function
(`message.leaf() = keccak256(message.message)`), passed explicitly. -/
def store_raw_committed_message (keccak : List Nat → H256)
    (db : NomadDB) (m : RawCommittedMessage) : Except StoreErr NomadDB :=
  match NomadMessage.read_from m.message with
  | none => .error .parse
  | some parsed =>
    let leaf := keccak m.message
    let db1 := store_leaf db m.leaf_index parsed.destination_and_nonce leaf
    .ok { db1 with
          message_ := fun k => if k = leaf then some m else db1.message_ k }

/-- `NomadDB::store_latest_message`: when a latest leaf index is stored,
compare it against `message.leaf_index - 1` (the u32 subtraction underflows
when `leaf_index = 0`) and advance the pointer only on a match; when none is
stored, write the incoming index unconditionally; then store the raw committed
message. -/
def store_latest_message (keccak : List Nat → H256)
    (db : NomadDB) (m : RawCommittedMessage) : Except StoreErr NomadDB :=
  match db.latest_leaf_index_ with
  | some idx =>
    if m.leaf_index = 0 then .error .underflow
    else
      let db1 :=
        if idx = m.leaf_index - 1 then update_latest_leaf_index db m.leaf_index
        else db
      store_raw_committed_message keccak db1 m
  | none =>
    store_raw_committed_message keccak (update_latest_leaf_index db m.leaf_index) m

/-- Run a sequence of `store_latest_message` calls left to right, stopping at
the first failure. -/
def runMessages (keccak : List Nat → H256)
    (db : NomadDB) (msgs : List RawCommittedMessage) : Except StoreErr NomadDB :=
  msgs.foldlM (store_latest_message keccak) db

/-- One call in a sequence of update-store operations: either a plain
`store_update` or a `store_latest_update`. -/
inductive StoreCall
  | plain (u : SignedUpdate)
  | latest (u : SignedUpdate)
deriving DecidableEq, Repr

/-- The signed update carried by a store call. -/
def StoreCall.upd : StoreCall → SignedUpdate
  | .plain u => u
  | .latest u => u

/-- Apply one store call to the database. -/
def applyStoreCall (db : NomadDB) : StoreCall → NomadDB
  | .plain u => store_update db u
  | .latest u => store_latest_update db u

/-- Run a sequence of `store_update` / `store_latest_update` calls. -/
def runStoreCalls (db : NomadDB) (calls : List StoreCall) : NomadDB :=
  calls.foldl applyStoreCall db

/-- `NomadDB::store_core`: record a core-contract value under its name (the
Rust stores the JSON serialization; the round-trip is the identity, so the
value is stored directly). -/
def store_core (db : NomadDB) (name : String) (core : CoreContracts) : NomadDB :=
  { db with
    core_integrity_ := fun k => if k = name then some core else db.core_integrity_ k }

/-- `NomadDB::check_core_integrity`: if a core is already stored under `name`,
succeed exactly when it equals the incoming one under the `CoreContracts`
`PartialEq` (`ensure!(integrity == *core)`); otherwise store the incoming
core.  `none` models the `Err` outcome. -/
def check_core_integrity (db : NomadDB) (name : String) (core : CoreContracts) :
    Option NomadDB :=
  match db.core_integrity_ name with
  | some integrity => if coreContractsEq integrity core then some db else none
  | none => some (store_core db name core)

/-- The `DispatchWait` monitor stage.  `timers` are pending histogram timers
(their wall-clock readings are not modelled, only their count), `blocks` the
pending dispatch block heights.  The two histograms are ghost state: a count
of duration observations and the list of values observed into the blocks
histogram. -/
structure DispatchWait where
  timers : List Unit
  blocks : List Nat
  observed_durations : Nat
  observed_blocks : List Nat
deriving DecidableEq, Repr

/-- A `DispatchWait` with no pending timers, heights or observations. -/
def DispatchWait.init : DispatchWait :=
  { timers := [], blocks := [], observed_durations := 0, observed_blocks := [] }

/-- `DispatchWait::handle_dispatch`: start a timer and remember the dispatch
block height. -/
def handle_dispatch (s : DispatchWait) (block_number : Nat) : DispatchWait :=
  { s with timers := s.timers ++ [()], blocks := s.blocks ++ [block_number] }

/-- `DispatchWait::handle_update`: observe every pending timer, observe
`block_number.saturating_sub(dispatch_height)` into the blocks histogram for
every pending height (saturating u64 subtraction is truncated subtraction on
naturals), and drain both pending vectors. -/
def handle_update (s : DispatchWait) (block_number : Nat) : DispatchWait :=
  { s with
    timers := []
    blocks := []
    observed_durations := s.observed_durations + s.timers.length
    observed_blocks := s.observed_blocks ++ s.blocks.map fun d => block_number - d }

/-- The distinguished watcher error marking history-sync exhaustion. -/
inductive WatcherError
  | SyncingFinished
deriving DecidableEq, Repr

/-- The cursor state of a `HistorySync` task. -/
structure HistorySync where
  committed_root : H256
deriving DecidableEq, Repr

/-- `HistorySync::update_history`: fetch the update whose new root is the
cursor (`signed_update_by_new_root`, supplied as `lookup`).  If none exists,
return `SyncingFinished`.  Otherwise emit the update to the update channel,
move the cursor to its previous root, and return `SyncingFinished` exactly
when that root is zero.  The result is the new cursor state, the emitted
updates, and the error if any. -/
def update_history (lookup : H256 → Option SignedUpdate) (s : HistorySync) :
    HistorySync × List SignedUpdate × Option WatcherError :=
  match lookup s.committed_root with
  | none => (s, [], some .SyncingFinished)
  | some previous_update =>
    let s' : HistorySync := ⟨previous_update.update.previous_root⟩
    if previous_update.update.previous_root = 0 then
      (s', [previous_update], some .SyncingFinished)
    else
      (s', [previous_update], none)

/-- The cursor state of a `ContractWatcher` task. -/
structure ContractWatcher where
  committed_root : H256
deriving DecidableEq, Repr

/-- `ContractWatcher::poll_and_send_update`: fetch the update building off the
cursor (`signed_update_by_old_root`, supplied as `lookup`).  If none, do
nothing.  Otherwise the cursor is assigned the update's new root FIRST, and
the update is then sent on the channel; `send_ok` models whether that send
succeeds.  The result is the new cursor state, the updates actually delivered
to the channel, and whether the call returned without error. -/
def poll_and_send_update (lookup : H256 → Option SignedUpdate) (send_ok : Bool)
    (s : ContractWatcher) : ContractWatcher × List SignedUpdate × Bool :=
  match lookup s.committed_root with
  | none => (s, [], true)
  | some new_update =>
    let s' : ContractWatcher := ⟨new_update.update.new_root⟩
    if send_ok then (s', [new_update], true) else (s', [], false)

/-- The initial update of scenario S6: previous root `0x00`, new root `0x01`. -/
def u01 : SignedUpdate := ⟨⟨1, 0, 1⟩, 7⟩

/-- The second update of scenario S6: previous root `0x01`, new root `0x02`. -/
def u12 : SignedUpdate := ⟨⟨1, 1, 2⟩, 7⟩

/-- The store of scenario S6, holding the chain `0x00 → 0x01 → 0x02`. -/
def historyDB : NomadDB :=
  store_latest_update (store_latest_update emptyDB u01) u12

/-- An update from root 1 to root 3. -/
def u13 : SignedUpdate := ⟨⟨1, 1, 3⟩, 7⟩

/-- An update from root 2 to the same new root 3 as `u13`. -/
def u23 : SignedUpdate := ⟨⟨1, 2, 3⟩, 7⟩

/-- The store after `store_update(u13); store_update(u23)`: two stored updates
sharing the new root 3. -/
def doubleStoredDB : NomadDB :=
  runStoreCalls emptyDB [.plain u13, .plain u23]

/-- A core-contract value whose home proxy has implementation address 1. -/
def coreX : CoreContracts := .Evm ⟨0, 0, 0, 0, ⟨0, 0, 0⟩, ⟨1, 2, 3⟩, []⟩

/-- A core-contract value identical to `coreX` except that the home proxy's
implementation address is 9. -/
def coreY : CoreContracts := .Evm ⟨0, 0, 0, 0, ⟨0, 0, 0⟩, ⟨9, 2, 3⟩, []⟩

/-- A parseable raw committed message with leaf index 5. -/
def m5 : RawCommittedMessage := ⟨5, 0, List.replicate 76 0⟩

/-- Project the latest leaf index out of a successful store result. -/
def okLatest : Except StoreErr NomadDB → Option (Option Nat)
  | .ok db => some db.latest_leaf_index_
  | .error _ => none

/-- Claim C1: for two distinct signed updates `a` and `b` with the same
previous root, different new roots and signatures recovering to the same
signer, if `a` is already stored then `check_double_update` applied to `b`
returns `Err(DoubleUpdate(a, b))` — the previously stored update first, the
newly arrived one second. -/
theorem check_double_update_reports_double
    (recover : SignedUpdate → Option Nat) (db : NomadDB) (a b : SignedUpdate) (s : Nat)
    (hab : a ≠ b)
    (hstored : update_by_previous_root db b.update.previous_root = some a)
    (hprev : a.update.previous_root = b.update.previous_root)
    (hnew : a.update.new_root ≠ b.update.new_root)
    (hra : recover a = some s) (hrb : recover b = some s) :
    check_double_update recover db b = .error ⟨a, b⟩ := by
  unfold check_double_update
  rw [hstored]
  dsimp only
  rw [hra, hrb]
  dsimp only
  rw [if_pos ⟨hnew, rfl⟩]

/-- Witness for C1: a concrete double update (scenario S1's conflict) is
reported with the stored update first. -/
theorem check_double_update_reports_double_witness :
    check_double_update (fun su => some su.signature)
      (store_update emptyDB u13) ⟨⟨1, 1, 4⟩, 7⟩ = .error ⟨u13, ⟨⟨1, 1, 4⟩, 7⟩⟩ :=
  check_double_update_reports_double _ _ u13 ⟨⟨1, 1, 4⟩, 7⟩ 7 (by decide) (by decide)
    rfl (by decide) rfl rfl

/-- Claim C6: for a pair of updates sharing the same previous root whose
signatures recover to different addresses, or where either recovery fails,
`check_double_update` returns `Ok` and reports no double update. -/
theorem check_double_update_ok_without_same_signer
    (recover : SignedUpdate → Option Nat) (db : NomadDB) (a b : SignedUpdate)
    (hstored : update_by_previous_root db b.update.previous_root = some a)
    (hprev : a.update.previous_root = b.update.previous_root)
    (hcase : recover a = none ∨ recover b = none ∨
      ∃ s t, recover a = some s ∧ recover b = some t ∧ s ≠ t) :
    check_double_update recover db b = .ok db := by
  unfold check_double_update
  rw [hstored]
  dsimp only
  rcases hcase with ha | hb | ⟨s, t, ha, hb, hst⟩
  · rw [ha]
  · rw [hb]
    rcases recover a with _ | s <;> rfl
  · rw [ha, hb]
    dsimp only
    rw [if_neg]
    intro h
    exact hst h.2

/-- Witness for C6: scenario S2's signer rotation — the conflicting update is
signed by a different key, so the handler returns `Ok`. -/
theorem check_double_update_ok_without_same_signer_witness :
    check_double_update (fun su => some su.signature)
      (store_update emptyDB u13) ⟨⟨1, 1, 4⟩, 8⟩ = .ok (store_update emptyDB u13) :=
  check_double_update_ok_without_same_signer _ _ u13 ⟨⟨1, 1, 4⟩, 8⟩ (by decide) rfl
    (Or.inr (Or.inr ⟨7, 8, rfl, rfl, by decide⟩))

/-- Claim C9: in `ContractWatcher::poll_and_send_update` the cursor is
assigned the fetched update's new root before the channel send, so when the
send fails the cursor has still advanced (nothing was delivered and the call
errors), and when it succeeds the cursor holds the same new root. -/
theorem poll_and_send_update_advances_cursor_before_send
    (lookup : H256 → Option SignedUpdate) (s : ContractWatcher) (nu : SignedUpdate)
    (h : lookup s.committed_root = some nu) :
    (poll_and_send_update lookup false s).1.committed_root = nu.update.new_root ∧
    (poll_and_send_update lookup false s).2.1 = [] ∧
    (poll_and_send_update lookup false s).2.2 = false ∧
    (poll_and_send_update lookup true s).1.committed_root = nu.update.new_root := by
  unfold poll_and_send_update
  rw [h]
  exact ⟨rfl, rfl, rfl, rfl⟩

/-- Witness for C9: a concrete poll whose channel send fails still advances
the cursor to the fetched update's new root. -/
theorem poll_and_send_update_advances_cursor_before_send_witness :
    (poll_and_send_update (fun _ => some u12) false ⟨1⟩).1.committed_root = 2 ∧
    (poll_and_send_update (fun _ => some u12) false ⟨1⟩).2.1 = [] ∧
    (poll_and_send_update (fun _ => some u12) false ⟨1⟩).2.2 = false ∧
    (poll_and_send_update (fun _ => some u12) true ⟨1⟩).1.committed_root = 2 :=
  poll_and_send_update_advances_cursor_before_send _ _ u12 rfl

/-- Claim C8: `HistorySync::update_history` walks backwards via
`signed_update_by_new_root`: with no earlier update it returns
`SyncingFinished`; otherwise it emits the found update, moves the cursor to
its previous root, and returns `SyncingFinished` exactly when that root is
zero.  Concretely (scenario S6), over the stored chain `0x00 → 0x01 → 0x02`
starting from `0x02`, the first call emits the `0x01 → 0x02` update and
advances to `0x01`, and the second emits `0x00 → 0x01` and returns
`SyncingFinished`. -/
theorem update_history_walks_back_until_zero :
    (∀ (lookup : H256 → Option SignedUpdate) (s : HistorySync),
      (lookup s.committed_root = none →
        update_history lookup s = (s, [], some .SyncingFinished)) ∧
      (∀ pu, lookup s.committed_root = some pu →
        update_history lookup s =
          (⟨pu.update.previous_root⟩, [pu],
            if pu.update.previous_root = 0 then some .SyncingFinished else none))) ∧
    update_history (update_by_new_root historyDB) ⟨2⟩ = (⟨1⟩, [u12], none) ∧
    update_history (update_by_new_root historyDB) ⟨1⟩ =
      (⟨0⟩, [u01], some .SyncingFinished) := by
  refine ⟨fun lookup s => ⟨fun h => ?_, fun pu h => ?_⟩, by decide, by decide⟩
  · unfold update_history
    rw [h]
  · unfold update_history
    rw [h]
    dsimp only
    split <;> rfl

/-- Witness for C8: the general characterization applied at a concrete
exhausted lookup returns `SyncingFinished` and emits nothing. -/
theorem update_history_walks_back_until_zero_witness :
    update_history (fun _ => none) ⟨5⟩ = (⟨5⟩, [], some .SyncingFinished) :=
  (update_history_walks_back_until_zero.1 (fun _ => none) ⟨5⟩).1 rfl

/-- Folding `handle_dispatch` over a list of block heights appends one timer
and one height per dispatch and leaves the histograms untouched. -/
theorem foldl_handle_dispatch (ds : List Nat) (s : DispatchWait) :
    ds.foldl handle_dispatch s =
      { s with
        timers := s.timers ++ List.replicate ds.length ()
        blocks := s.blocks ++ ds } := by
  induction ds generalizing s with
  | nil => simp
  | cons d rest ih =>
    rw [List.foldl_cons, ih]
    simp [handle_dispatch, List.replicate_succ]

/-- Claim C7: after `N` dispatches at heights `d₁..dₙ` followed by one update
at height `u` (starting with no pending dispatches), the blocks histogram
receives exactly `N` observations with values `u − dᵢ`, one per pending
dispatch, `N` timers are observed, and both pending vectors are empty
afterwards. -/
theorem dispatch_wait_observes_all_pending
    (ds : List Nat) (u : Nat) (s0 : DispatchWait)
    (ht : s0.timers = []) (hb : s0.blocks = []) :
    handle_update (ds.foldl handle_dispatch s0) u =
      { timers := []
        blocks := []
        observed_durations := s0.observed_durations + ds.length
        observed_blocks := s0.observed_blocks ++ ds.map fun d => u - d } ∧
    (s0.observed_blocks ++ ds.map fun d => u - d).length =
      s0.observed_blocks.length + ds.length := by
  rw [foldl_handle_dispatch]
  refine ⟨?_, by simp⟩
  simp [handle_update, ht, hb]

/-- Witness for C7: two dispatches at blocks 3 and 5 and an update at block 9
put exactly the observations `9−3` and `9−5` into the blocks histogram and
leave the pending vectors empty. -/
theorem dispatch_wait_observes_all_pending_witness :
    handle_update (([3, 5] : List Nat).foldl handle_dispatch DispatchWait.init) 9 =
      { timers := []
        blocks := []
        observed_durations := 2
        observed_blocks := [6, 4] } ∧
    ([] ++ ([3, 5] : List Nat).map fun d => 9 - d).length = 2 :=
  dispatch_wait_observes_all_pending [3, 5] 9 DispatchWait.init rfl rfl

/-- Claim C4: `store_latest_update(U)` with an existing latest root different
from `U.previous_root` performs exactly the two per-root writes of
`store_update` (which never touches the latest-root pointer); the pointer is
assigned `U.new_root` exactly when `U.previous_root` equals the current
latest root or none exists. -/
theorem store_latest_update_frame (db : NomadDB) (u : SignedUpdate) (r : H256) :
    (db.update_latest_root = some r → r ≠ u.update.previous_root →
      store_latest_update db u = store_update db u) ∧
    (db.update_latest_root = some u.update.previous_root ∨
        db.update_latest_root = none →
      store_latest_update db u =
        store_update (store_latest_root db u.update.new_root) u) ∧
    (store_update db u).update_latest_root = db.update_latest_root := by
  refine ⟨fun h hne => ?_, fun h => ?_, rfl⟩
  · unfold store_latest_update
    rw [h]
    dsimp only
    rw [if_neg fun hr => hne hr]
  · unfold store_latest_update
    rcases h with h | h <;> rw [h]
    dsimp only
    rw [if_pos rfl]

/-- Witness for C4: with latest root 5, an update from 9 to 10 leaves the
pointer alone and performs only the `store_update` writes; an update from 5
advances the pointer. -/
theorem store_latest_update_frame_witness :
    store_latest_update (store_latest_root emptyDB 5) ⟨⟨1, 9, 10⟩, 0⟩ =
      store_update (store_latest_root emptyDB 5) ⟨⟨1, 9, 10⟩, 0⟩ ∧
    (store_update (store_latest_root emptyDB 5) ⟨⟨1, 9, 10⟩, 0⟩).update_latest_root =
      (store_latest_root emptyDB 5).update_latest_root :=
  ⟨(store_latest_update_frame (store_latest_root emptyDB 5) ⟨⟨1, 9, 10⟩, 0⟩ 5).1 rfl
      (by decide),
   (store_latest_update_frame (store_latest_root emptyDB 5) ⟨⟨1, 9, 10⟩, 0⟩ 5).2.2⟩

/-- `store_raw_committed_message` can fail only with a parse error, never with
the underflow panic. -/
theorem store_raw_committed_message_no_underflow
    (keccak : List Nat → H256) (db : NomadDB) (m : RawCommittedMessage) :
    store_raw_committed_message keccak db m ≠ .error .underflow := by
  unfold store_raw_committed_message
  rcases NomadMessage.read_from m.message with _ | parsed <;> simp

/-- A successful `store_raw_committed_message` does not change the latest leaf
index. -/
theorem store_raw_committed_message_latest
    (keccak : List Nat → H256) (db : NomadDB) (m : RawCommittedMessage)
    (db' : NomadDB) (h : store_raw_committed_message keccak db m = .ok db') :
    db'.latest_leaf_index_ = db.latest_leaf_index_ := by
  unfold store_raw_committed_message at h
  rcases hp : NomadMessage.read_from m.message with _ | parsed <;> rw [hp] at h
  · exact absurd h (by simp)
  · dsimp only at h
    cases h
    rfl

/-- `store_raw_committed_message` succeeds on messages of at least 76 bytes. -/
theorem store_raw_committed_message_ok
    (keccak : List Nat → H256) (db : NomadDB) (m : RawCommittedMessage)
    (hlen : 76 ≤ m.message.length) :
    ∃ db', store_raw_committed_message keccak db m = .ok db' := by
  unfold store_raw_committed_message NomadMessage.read_from
  rw [if_neg (by omega)]
  exact ⟨_, rfl⟩

/-- Claim C10: `store_latest_message` is total exactly on the inputs where the
store is empty or `message.leaf_index ≥ 1`; when a latest leaf index is
stored and `leaf_index = 0`, the comparison's u32 subtraction
`message.leaf_index - 1` underflows before the mismatch branch is reached. -/
theorem store_latest_message_underflow
    (keccak : List Nat → H256) (db : NomadDB) (m : RawCommittedMessage) (idx : Nat) :
    ((db.latest_leaf_index_ = none ∨ 1 ≤ m.leaf_index) →
      store_latest_message keccak db m ≠ .error .underflow) ∧
    (db.latest_leaf_index_ = some idx → m.leaf_index = 0 →
      store_latest_message keccak db m = .error .underflow) := by
  constructor
  · intro hpre
    unfold store_latest_message
    rcases hl : db.latest_leaf_index_ with _ | j
    · exact store_raw_committed_message_no_underflow keccak _ m
    · dsimp only
      rcases hpre with hnone | hge
      · rw [hl] at hnone
        exact absurd hnone (by simp)
      · rw [if_neg (by omega)]
        split <;> exact store_raw_committed_message_no_underflow keccak _ m
  · intro hl h0
    unfold store_latest_message
    rw [hl]
    dsimp only
    rw [if_pos h0]

/-- Witness for C10: a message with leaf index 0 panics against a store whose
latest leaf index is 3, and is handled fine against an empty store. -/
theorem store_latest_message_underflow_witness :
    store_latest_message (fun _ => 0) (update_latest_leaf_index emptyDB 3) ⟨0, 0, []⟩ =
      .error .underflow ∧
    store_latest_message (fun _ => 0) emptyDB ⟨0, 0, []⟩ ≠ .error .underflow :=
  ⟨(store_latest_message_underflow (fun _ => 0) (update_latest_leaf_index emptyDB 3)
      ⟨0, 0, []⟩ 3).2 rfl rfl,
   (store_latest_message_underflow (fun _ => 0) emptyDB ⟨0, 0, []⟩ 0).1 (Or.inl rfl)⟩

/-- Storing a run of parseable messages whose leaf indices continue the
current latest leaf index by consecutive increments succeeds and leaves the
latest leaf index at the last stored index. -/
theorem runMessages_consecutive (keccak : List Nat → H256) :
    ∀ (msgs : List RawCommittedMessage) (db : NomadDB) (j : Nat),
      db.latest_leaf_index_ = some j →
      (∀ i (h : i < msgs.length), (msgs.get ⟨i, h⟩).leaf_index = j + 1 + i) →
      (∀ m ∈ msgs, 76 ≤ m.message.length) →
      ∃ db', runMessages keccak db msgs = .ok db' ∧
        db'.latest_leaf_index_ = some (j + msgs.length) := by
  intro msgs
  induction msgs with
  | nil =>
    intro db j hj _ _
    exact ⟨db, rfl, by simpa using hj⟩
  | cons m rest ih =>
    intro db j hj hidx hlen
    have hm : m.leaf_index = j + 1 := by simpa using hidx 0 (by simp)
    have hstep :
        store_latest_message keccak db m =
          store_raw_committed_message keccak (update_latest_leaf_index db m.leaf_index) m := by
      unfold store_latest_message
      rw [hj]
      dsimp only
      rw [if_neg (by omega), if_pos (by omega)]
    obtain ⟨db1, hdb1⟩ :=
      store_raw_committed_message_ok keccak (update_latest_leaf_index db m.leaf_index) m
        (hlen m (by simp))
    have hlatest1 : db1.latest_leaf_index_ = some (j + 1) := by
      rw [store_raw_committed_message_latest keccak _ m db1 hdb1]
      simp [update_latest_leaf_index, hm]
    obtain ⟨db', hrun, hlast⟩ :=
      ih db1 (j + 1) hlatest1
        (fun i h => by
          have := hidx (i + 1) (by simpa using Nat.succ_lt_succ h)
          simpa [Nat.add_assoc, Nat.add_comm, Nat.add_left_comm] using this)
        (fun m' hm' => hlen m' (List.mem_cons_of_mem _ hm'))
    refine ⟨db', ?_, ?_⟩
    · unfold runMessages at hrun ⊢
      rw [List.foldlM_cons, hstep, hdb1]
      exact hrun
    · rw [hlast]
      congr 1
      simp [Nat.add_assoc]
      omega

/-- Amended claim C3: a completed `store_latest_message` changes
`latest_leaf_index_` only when the message's leaf index equals the current
latest index plus one, or when the store is empty — in which case ANY leaf
index is accepted as the first one, not only 0; over parseable messages with
leaf indices strictly increasing by 1 from 0, `retrieve_latest_leaf_index`
equals the last stored index; and a completed out-of-order insertion leaves
the latest index unchanged. -/
theorem store_latest_message_gating :
    (∀ (keccak : List Nat → H256) (db : NomadDB) (m : RawCommittedMessage)
        (db' : NomadDB),
      store_latest_message keccak db m = .ok db' →
      db'.latest_leaf_index_ ≠ db.latest_leaf_index_ →
      db'.latest_leaf_index_ = some m.leaf_index ∧
        ((∃ idx, db.latest_leaf_index_ = some idx ∧ m.leaf_index = idx + 1) ∨
          db.latest_leaf_index_ = none)) ∧
    (∀ (keccak : List Nat → H256) (db : NomadDB) (m : RawCommittedMessage)
        (idx : Nat) (db' : NomadDB),
      db.latest_leaf_index_ = some idx → m.leaf_index ≠ idx + 1 →
      store_latest_message keccak db m = .ok db' →
      db'.latest_leaf_index_ = db.latest_leaf_index_) ∧
    (∀ (keccak : List Nat → H256) (msgs : List RawCommittedMessage),
      msgs ≠ [] →
      (∀ i (h : i < msgs.length), (msgs.get ⟨i, h⟩).leaf_index = i) →
      (∀ m ∈ msgs, 76 ≤ m.message.length) →
      ∃ db', runMessages keccak emptyDB msgs = .ok db' ∧
        retrieve_latest_leaf_index db' = some (msgs.length - 1)) := by
  refine ⟨?_, ?_, ?_⟩
  · intro keccak db m db' hok hne
    unfold store_latest_message at hok
    rcases hl : db.latest_leaf_index_ with _ | idx <;> rw [hl] at hok
    · dsimp only at hok
      have := store_raw_committed_message_latest keccak _ m db' hok
      rw [this]
      exact ⟨rfl, Or.inr rfl⟩
    · dsimp only at hok
      rcases h0 : m.leaf_index with _ | k
      · rw [if_pos h0] at hok
        exact absurd hok (by simp)
      · rw [if_neg (by omega)] at hok
        by_cases hcond : idx = m.leaf_index - 1
        · rw [if_pos hcond] at hok
          have hlt := store_raw_committed_message_latest keccak _ m db' hok
          refine ⟨?_, Or.inl ⟨idx, rfl, by omega⟩⟩
          rw [hlt]
          simp only [update_latest_leaf_index, Option.some.injEq]
          omega
        · rw [if_neg hcond] at hok
          have := store_raw_committed_message_latest keccak _ m db' hok
          exact absurd this hne
  · intro keccak db m idx db' hl hne hok
    unfold store_latest_message at hok
    rw [hl] at hok
    dsimp only at hok
    rcases h0 : m.leaf_index with _ | k
    · rw [if_pos h0] at hok
      exact absurd hok (by simp)
    · rw [if_neg (by omega), if_neg (by omega)] at hok
      exact store_raw_committed_message_latest keccak _ m db' hok
  · intro keccak msgs hne hidx hlen
    rcases msgs with _ | ⟨m, rest⟩
    · exact absurd rfl hne
    have hm : m.leaf_index = 0 := by simpa using hidx 0 (by simp)
    obtain ⟨db1, hdb1⟩ :=
      store_raw_committed_message_ok keccak
        (update_latest_leaf_index emptyDB m.leaf_index) m (hlen m (by simp))
    have hstep : store_latest_message keccak emptyDB m = .ok db1 := by
      unfold store_latest_message
      exact hdb1
    have hlatest1 : db1.latest_leaf_index_ = some 0 := by
      rw [store_raw_committed_message_latest keccak _ m db1 hdb1]
      simp [update_latest_leaf_index, hm]
    obtain ⟨db', hrun, hlast⟩ :=
      runMessages_consecutive keccak rest db1 0 hlatest1
        (fun i h => by
          have := hidx (i + 1) (by simpa using Nat.succ_lt_succ h)
          simpa [Nat.add_comm] using this)
        (fun m' hm' => hlen m' (List.mem_cons_of_mem _ hm'))
    refine ⟨db', ?_, ?_⟩
    · unfold runMessages at hrun ⊢
      rw [List.foldlM_cons, hstep]
      exact hrun
    · rw [retrieve_latest_leaf_index, hlast]
      simp

/-- Witness for amended C3: the three parts applied at concrete inputs — a
first message with leaf index 5 into an empty store is written; an
out-of-order message with leaf index 7 against latest index 3 leaves the
index at 3; the sequence of leaf indices 0, 1, 2 ends with latest index 2. -/
theorem store_latest_message_gating_witness :
    ((runMessages (fun _ => 0) emptyDB
        [⟨0, 0, List.replicate 76 0⟩, ⟨1, 0, List.replicate 76 0⟩,
         ⟨2, 0, List.replicate 76 0⟩]).map NomadDB.latest_leaf_index_ = .ok (some 2)) ∧
    okLatest (store_latest_message (fun _ => 0)
      (update_latest_leaf_index emptyDB 3) ⟨7, 0, List.replicate 76 0⟩) =
      some (some 3) := by
  obtain ⟨db', hrun, hlast⟩ :=
    store_latest_message_gating.2.2 (fun _ => 0)
      [⟨0, 0, List.replicate 76 0⟩, ⟨1, 0, List.replicate 76 0⟩,
       ⟨2, 0, List.replicate 76 0⟩]
      (by decide)
      (by decide)
      (by decide)
  refine ⟨?_, ?_⟩
  · rw [hrun]
    exact congrArg Except.ok hlast
  · decide

/-- Counterexample to claim C3 as stated: into an empty store, a first
message with leaf index 5 (not 0) still writes `latest_leaf_index_`, so a new
value is written although the leaf index neither extends a current index nor
is 0 on an empty store. -/
theorem store_latest_message_gating_counterexample :
    okLatest (store_latest_message (fun _ => 0) emptyDB m5) = some (some 5) ∧
    emptyDB.latest_leaf_index_ = none ∧ m5.leaf_index ≠ 0 := by
  decide

/-- Both kinds of store call write the `update_` map exactly at the update's
previous root. -/
theorem applyStoreCall_update_ (db : NomadDB) (c : StoreCall) (p : H256) :
    (applyStoreCall db c).update_ p =
      if p = c.upd.update.previous_root then some c.upd else db.update_ p := by
  cases c with
  | plain u => rfl
  | latest u =>
    show (store_latest_update db u).update_ p = _
    unfold store_latest_update
    rcases db.update_latest_root with _ | root
    · rfl
    · dsimp only
      split <;> rfl

/-- Both kinds of store call write the `update_prev_root` map exactly at the
update's new root. -/
theorem applyStoreCall_update_prev_root (db : NomadDB) (c : StoreCall) (n : H256) :
    (applyStoreCall db c).update_prev_root n =
      if n = c.upd.update.new_root then some c.upd.update.previous_root
      else db.update_prev_root n := by
  cases c with
  | plain u => rfl
  | latest u =>
    show (store_latest_update db u).update_prev_root n = _
    unfold store_latest_update
    rcases db.update_latest_root with _ | root
    · rfl
    · dsimp only
      split <;> rfl

/-- Keys whose previous root occurs in no call of a sequence are untouched in
the `update_` map. -/
theorem runStoreCalls_update_frame (calls : List StoreCall) :
    ∀ (db : NomadDB) (p : H256),
      (∀ c ∈ calls, c.upd.update.previous_root ≠ p) →
      (runStoreCalls db calls).update_ p = db.update_ p := by
  induction calls with
  | nil => intro db p _; rfl
  | cons c rest ih =>
    intro db p h
    have hstep : (runStoreCalls db (c :: rest)) = runStoreCalls (applyStoreCall db c) rest := rfl
    rw [hstep, ih _ p fun c' hc' => h c' (List.mem_cons_of_mem _ hc'),
      applyStoreCall_update_,
      if_neg fun hp => h c (List.mem_cons_self _ _) hp.symm]

/-- Keys whose new root occurs in no call of a sequence are untouched in the
`update_prev_root` map. -/
theorem runStoreCalls_prev_root_frame (calls : List StoreCall) :
    ∀ (db : NomadDB) (n : H256),
      (∀ c ∈ calls, c.upd.update.new_root ≠ n) →
      (runStoreCalls db calls).update_prev_root n = db.update_prev_root n := by
  induction calls with
  | nil => intro db n _; rfl
  | cons c rest ih =>
    intro db n h
    have hstep : (runStoreCalls db (c :: rest)) = runStoreCalls (applyStoreCall db c) rest := rfl
    rw [hstep, ih _ n fun c' hc' => h c' (List.mem_cons_of_mem _ hc'),
      applyStoreCall_update_prev_root,
      if_neg fun hn => h c (List.mem_cons_self _ _) hn.symm]

/-- Amended claim C5: after any sequence of `store_update` /
`store_latest_update` calls whose updates have pairwise distinct previous
roots and pairwise distinct new roots, every stored update `U` satisfies I1:
`retrieve(update_ ‖ U.previous_root) = U` and
`retrieve(update_prev_root ‖ U.new_root) = U.previous_root`.  (Without the
distinctness conditions a later write to a shared key clobbers the pair, see
the counterexample.) -/
theorem store_update_retrieval_invariant :
    ∀ (calls : List StoreCall) (db : NomadDB) (u : SignedUpdate),
      u ∈ calls.map StoreCall.upd →
      (calls.map fun c => c.upd.update.previous_root).Nodup →
      (calls.map fun c => c.upd.update.new_root).Nodup →
      update_by_previous_root (runStoreCalls db calls) u.update.previous_root =
        some u ∧
      (runStoreCalls db calls).update_prev_root u.update.new_root =
        some u.update.previous_root := by
  intro calls
  induction calls with
  | nil => intro db u hmem _ _; exact absurd hmem (by simp)
  | cons c rest ih =>
    intro db u hmem hprevs hnews
    have hstep : (runStoreCalls db (c :: rest)) = runStoreCalls (applyStoreCall db c) rest := rfl
    have hprevs' : (∀ x ∈ rest,
        ¬x.upd.update.previous_root = c.upd.update.previous_root) ∧
        (rest.map fun c => c.upd.update.previous_root).Nodup := by
      simpa using hprevs
    have hnews' : (∀ x ∈ rest, ¬x.upd.update.new_root = c.upd.update.new_root) ∧
        (rest.map fun c => c.upd.update.new_root).Nodup := by
      simpa using hnews
    rcases (show u = c.upd ∨ ∃ a ∈ rest, a.upd = u by
        simpa using hmem) with hu | ⟨a, ha, hau⟩
    · subst hu
      rw [hstep]
      constructor
      · rw [update_by_previous_root, runStoreCalls_update_frame rest _ _ hprevs'.1,
          applyStoreCall_update_, if_pos rfl]
      · rw [runStoreCalls_prev_root_frame rest _ _ hnews'.1,
          applyStoreCall_update_prev_root, if_pos rfl]
    · rw [hstep]
      exact ih (applyStoreCall db c) u (List.mem_map.2 ⟨a, ha, hau⟩)
        hprevs'.2 hnews'.2

/-- Witness for amended C5: the chain `u01; u12` stored via
`store_latest_update` retrieves both updates and both previous roots. -/
theorem store_update_retrieval_invariant_witness :
    update_by_previous_root historyDB u01.update.previous_root = some u01 ∧
    historyDB.update_prev_root u01.update.new_root = some u01.update.previous_root :=
  store_update_retrieval_invariant [.latest u01, .latest u12] emptyDB u01
    (by decide) (by decide) (by decide)

/-- Counterexample to claim C5 as stated: storing `u13` (roots 1 → 3) and
then `u23` (roots 2 → 3) leaves `u13` stored, but
`retrieve(update_prev_root ‖ 3)` yields 2, not `u13`'s previous root 1 — I1
does not hold for every stored update over all call sequences. -/
theorem store_update_retrieval_invariant_counterexample :
    update_by_previous_root doubleStoredDB u13.update.previous_root = some u13 ∧
    doubleStoredDB.update_prev_root u13.update.new_root ≠
      some u13.update.previous_root := by
  decide

/-- Amended claim C2: on a store with no core recorded under `name`,
`check_core_integrity(name, x)` stores `x`, and a subsequent
`check_core_integrity(name, y)` succeeds if and only if `x` and `y` are equal
under the `CoreContracts` `PartialEq` — which, through `Proxy`'s custom
`PartialEq`, ignores every implementation address (so it is coarser than
set-equality of the JSON encodings, see the counterexample). -/
theorem check_core_integrity_write_once
    (db : NomadDB) (name : String) (x y : CoreContracts)
    (hfresh : db.core_integrity_ name = none) :
    check_core_integrity db name x = some (store_core db name x) ∧
    (store_core db name x).core_integrity_ name = some x ∧
    ((check_core_integrity (store_core db name x) name y).isSome ↔
      coreContractsEq x y = true) := by
  refine ⟨?_, ?_, ?_⟩
  · unfold check_core_integrity
    rw [hfresh]
  · unfold store_core
    dsimp only
    rw [if_pos rfl]
  · unfold check_core_integrity store_core
    dsimp only
    rw [if_pos rfl]
    dsimp only
    by_cases h : coreContractsEq x y = true
    · rw [if_pos h]
      simp [h]
    · rw [if_neg h]
      simp [h]

/-- Witness for amended C2: checking the same core twice under the name
"toast" succeeds, and the second check's success coincides with the
`PartialEq` verdict. -/
theorem check_core_integrity_write_once_witness :
    check_core_integrity emptyDB "toast" coreX = some (store_core emptyDB "toast" coreX) ∧
    (store_core emptyDB "toast" coreX).core_integrity_ "toast" = some coreX ∧
    ((check_core_integrity (store_core emptyDB "toast" coreX) "toast" coreX).isSome ↔
      coreContractsEq coreX coreX = true) :=
  check_core_integrity_write_once emptyDB "toast" coreX coreX rfl

/-- Counterexample to claim C2 as stated: `coreX` and `coreY` differ in the
home proxy's implementation address, so their JSON encodings are not
set-equal, yet `check_core_integrity("toast", coreX);
check_core_integrity("toast", coreY)` succeeds — the success of the sequence
is not equivalent to JSON set-equality. -/
theorem check_core_integrity_json_counterexample :
    (Option.bind (check_core_integrity emptyDB "toast" coreX)
      fun db' => check_core_integrity db' "toast" coreY).isSome = true ∧
    coreJsonEq coreX coreY = false := by
  decide

end Nomad
